import Mathlib

/-!
Verification of the worktree teardown orchestrator of koh (cmd/cleanup.go).

The orchestrator `runCleanup` coordinates three external subsystems — the
filesystem, the git metadata (VCS collaborator) and the tmux terminal
multiplexer — to remove a single worktree.  We embed it shallowly: every
collaborator call is an oracle whose outcome for this single invocation is a
field of an `Env` record, and the orchestrator is a pure function from `Env`
to the list of observable events it performs (collaborator calls and printed
lines, in execution order) together with its `Except`-style error result.
Every call site of the Go source appears exactly once in the embedding, in
source order, so temporal claims become statements about the event list.
-/

/-- Outcome of the `os.Stat` existence probe on the worktree path: the stat
succeeded, failed with a not-exist error (`os.IsNotExist` is true), or failed
with some other error (for which `os.IsNotExist` is false). -/
inductive StatRes where
  | ok
  | notExist
  | otherErr (msg : String)
  deriving DecidableEq, Repr

/-- Observable events of one `runCleanup` invocation: each collaborator call
of the Go source, plus each printed line (`fmt.Printf` / `fmt.Println`),
recorded in execution order. -/
inductive Event where
  | isInWorktreeCall
  | getCurrentWorktreePathCall
  | validateCall (name : String)
  | setupContextCall
  | getMainRepoRootCall
  | statCall (path : String)
  | getwdCall
  | absCall (path : String)
  | relCall (base target : String)
  | chdirCall (path : String)
  | removeWorktreeCall (path : String)
  | removeAllCall (path : String)
  | isInTmuxCall
  | getRepoNameCall
  | closeWindowCall (window hint : String)
  | printLine (s : String)
  deriving DecidableEq, Repr

/-- Environment of one invocation: the command-line arguments, the platform,
and the outcome each collaborator call would return if performed.  Each field
models the result of the corresponding call site in cmd/cleanup.go.  For
fallible calls returning only an error, `none` is success and `some msg` the
error message. -/
structure Env where
  /-- Value of runtime.GOOS. -/
  goos : String
  /-- Positional arguments (cobra guarantees at most one). -/
  args : List String
  /-- Result of git.IsInWorktree(). -/
  isInWorktree : Bool
  /-- Result of git.GetCurrentWorktreePath(). -/
  currentWorktreePathRes : Except String String
  /-- Result of validation.ValidateWorktreeName on the resolved name. -/
  validateRes : Option String
  /-- Result of git.GetMainRepoRoot(). -/
  mainRepoRootRes : Except String String
  /-- Result of os.Stat on the worktree path. -/
  statRes : StatRes
  /-- Result of os.Getwd(). -/
  getwdRes : Except String String
  /-- Result of filepath.Abs(currentDir). -/
  absCurrentRes : Except String String
  /-- Result of filepath.Abs(worktreePath). -/
  absWorktreeRes : Except String String
  /-- Result of filepath.Rel(absWorktreePath, currentPath). -/
  relRes : Except String String
  /-- Result of os.Chdir(mainRepoRoot). -/
  chdirRes : Option String
  /-- Result of git.RemoveWorktreeWithContext(ctx, worktreePath). -/
  removeWorktreeRes : Option String
  /-- Result of os.RemoveAll(worktreePath). -/
  removeAllRes : Option String
  /-- Result of tmux.IsInTmux(). -/
  isInTmux : Bool
  /-- Result of git.GetRepoName(). -/
  repoNameRes : Except String String
  /-- Result of tmux.CloseWindow(windowName, worktreeName). -/
  closeWindowRes : Option String

/-- Model of Go's filepath.Base on Unix: empty input gives ".", trailing
separators are stripped, the last path element is returned, and an input of
only separators gives "/". -/
def filepathBase (path : String) : String :=
  if path = "" then "."
  else
    let cs := (path.data.reverse.dropWhile (fun c => c = '/')).reverse
    let last := (cs.reverse.takeWhile (fun c => c ≠ '/')).reverse
    if last = [] then "/" else String.mk last

/-- Model of filepath.Join(mainRepoRoot, ".koh", worktreeName) from line 81
of the source: the main repository root, the ".koh" namespace directory and
the worktree name joined with the path separator. -/
def buildWorktreePath (mainRepoRoot worktreeName : String) : String :=
  mainRepoRoot ++ "/.koh/" ++ worktreeName

/-- Model of Go's strings.HasPrefix (used at source line 109 through
strings.HasPrefix(rel, "..")): true when the second string's character
sequence starts the first string's.  Defined by structural recursion so that
it evaluates on concrete inputs. -/
def strStarts (s pre : String) : Bool :=
  pre.data.isPrefixOf s.data

/-- Embedding of extractWorkTreeName (source lines 32-43): fails when the
current directory is not in a worktree, otherwise derives the name from the
last path segment of the current worktree path. -/
def extractWorkTreeName (e : Env) : List Event × Except String String :=
  if !e.isInWorktree then
    ([Event.isInWorktreeCall], .error "not in a worktree")
  else
    match e.currentWorktreePathRes with
    | .error msg =>
        ([Event.isInWorktreeCall, Event.getCurrentWorktreePathCall],
         .error ("failed to get current worktree path: " ++ msg))
    | .ok p =>
        ([Event.isInWorktreeCall, Event.getCurrentWorktreePathCall],
         .ok (filepathBase p))

/-- Step 2 of the teardown (source lines 120-133): when the worktree exists,
remove the git worktree (failure is a warning) and then remove any remaining
directory (failure is a warning); when it does not exist, the whole block is
skipped.  These steps never abort, so they contribute only events. -/
def removalSteps (e : Env) (worktreeName worktreePath : String)
    (worktreeExists : Bool) : List Event :=
  if worktreeExists then
    [Event.printLine ("Removing git worktree: .koh/" ++ worktreeName),
     Event.removeWorktreeCall worktreePath] ++
    (match e.removeWorktreeRes with
     | some msg => [Event.printLine ("Warning: Failed to remove worktree: " ++ msg)]
     | none => [Event.printLine "Worktree removed successfully"]) ++
    [Event.removeAllCall worktreePath] ++
    (match e.removeAllRes with
     | some msg =>
         [Event.printLine ("Warning: Failed to remove worktree directory: " ++ msg)]
     | none => [])
  else []

/-- Value the source binds to repoName at line 143: the result of
git.GetRepoName(), degraded to the empty string when the lookup failed. -/
def repoStr (e : Env) : String :=
  match e.repoNameRes with
  | .error _ => ""
  | .ok n => n

/-- Step 3 of the teardown (source lines 135-151): when inside a tmux
session, look up the repository name (failure degrades to the empty string
with a warning), build the window name as repoName ++ "|" ++ worktreeName and
ask tmux to close it (failure is a warning); otherwise print an informational
notice.  These steps never abort, so they contribute only events. -/
def tmuxSteps (e : Env) (worktreeName : String) : List Event :=
  Event.isInTmuxCall ::
  (if e.isInTmux then
    (match e.repoNameRes with
     | .error msg =>
         [Event.getRepoNameCall,
          Event.printLine ("Warning: Failed to get repository name: " ++ msg)]
     | .ok _ => [Event.getRepoNameCall]) ++
    (let windowName := repoStr e ++ "|" ++ worktreeName
     Event.closeWindowCall windowName worktreeName ::
     (match e.closeWindowRes with
      | some msg => [Event.printLine ("Warning: " ++ msg)]
      | none => [Event.printLine "Tmux window closed (switched to previous window)"]))
  else [Event.printLine "Not in a tmux session, skipping tmux cleanup"])

/-- Embedding of runCleanup from the existence probe (source line 83) to the
end: the stat probe, current-directory resolution, absolute-path and
relative-path computation, the conditional change of working directory
(step 1, fatal on failure), the removal steps, the tmux steps and the final
completion notice. -/
def teardownFromStat (e : Env) (worktreeName worktreePath mainRepoRoot : String) :
    List Event × Except String Unit :=
  let statTr : List Event :=
    match e.statRes with
    | .notExist =>
        [Event.statCall worktreePath,
         Event.printLine ("Warning: Worktree .koh/" ++ worktreeName ++ " not found"),
         Event.printLine "Will attempt to clean up tmux window only"]
    | _ => [Event.statCall worktreePath]
  let worktreeExists : Bool := match e.statRes with | .notExist => false | _ => true
  match e.getwdRes with
  | .error msg =>
      (statTr ++ [Event.getwdCall],
       .error ("failed to get current directory: " ++ msg))
  | .ok currentDir =>
    match e.absCurrentRes with
    | .error msg =>
        (statTr ++ [Event.getwdCall, Event.absCall currentDir],
         .error ("failed to get absolute path: " ++ msg))
    | .ok currentPath =>
      match e.absWorktreeRes with
      | .error msg =>
          (statTr ++ [Event.getwdCall, Event.absCall currentDir,
                      Event.absCall worktreePath],
           .error ("failed to get absolute worktree path: " ++ msg))
      | .ok absWorktreePath =>
        let preTr := statTr ++
          [Event.getwdCall, Event.absCall currentDir, Event.absCall worktreePath,
           Event.relCall absWorktreePath currentPath]
        let isInTargetWorktree : Bool :=
          match e.relRes with
          | .ok rel => !strStarts rel ".."
          | .error _ => false
        if isInTargetWorktree then
          match e.chdirRes with
          | some msg =>
              (preTr ++
                 [Event.printLine
                    "Running from within target worktree, switching to parent repository...",
                  Event.chdirCall mainRepoRoot],
               .error ("failed to change to parent directory: " ++ msg))
          | none =>
              (preTr ++
                 [Event.printLine
                    "Running from within target worktree, switching to parent repository...",
                  Event.chdirCall mainRepoRoot,
                  Event.printLine ("Changed directory to: " ++ mainRepoRoot)] ++
               removalSteps e worktreeName worktreePath worktreeExists ++
               tmuxSteps e worktreeName ++
               [Event.printLine "Cleanup complete!"],
               .ok ())
        else
          (preTr ++
           removalSteps e worktreeName worktreePath worktreeExists ++
           tmuxSteps e worktreeName ++
           [Event.printLine "Cleanup complete!"],
           .ok ())

/-- Embedding of runCleanup (source lines 45-155): the Windows guard, target
resolution (explicit argument or inference via extractWorkTreeName), name
validation, the cancellable-context acquisition, main-repository-root lookup,
worktree-path construction, and the teardown phase. -/
def runCleanup (e : Env) : List Event × Except String Unit :=
  if e.goos = "windows" then
    ([], .error "cleanup command is not supported on Windows")
  else
    let resolved : List Event × Except String String :=
      match e.args with
      | [] =>
        match extractWorkTreeName e with
        | (tr, .error msg) =>
            (tr, .error ("failed to extract worktree name: " ++ msg))
        | (tr, .ok n) =>
            (tr ++ [Event.printLine ("Detected current worktree: " ++ n)], .ok n)
      | n :: _ => ([], .ok n)
    match resolved with
    | (tr, .error msg) => (tr, .error msg)
    | (tr, .ok worktreeName) =>
      let tr := tr ++ [Event.validateCall worktreeName]
      match e.validateRes with
      | some msg => (tr, .error ("invalid worktree name: " ++ msg))
      | none =>
        let tr := tr ++ [Event.setupContextCall, Event.getMainRepoRootCall]
        match e.mainRepoRootRes with
        | .error msg =>
            (tr, .error ("failed to get main repository root: " ++ msg))
        | .ok mainRepoRoot =>
          let worktreePath := buildWorktreePath mainRepoRoot worktreeName
          let out := teardownFromStat e worktreeName worktreePath mainRepoRoot
          (tr ++ out.1, out.2)

/-- Predicate on events: a destructive removal call (VCS worktree removal or
recursive directory removal). -/
def isRemovalEvent : Event → Bool
  | .removeWorktreeCall _ => true
  | .removeAllCall _ => true
  | _ => false

/-- Predicate on events: a working-directory change. -/
def isChdirEvent : Event → Bool
  | .chdirCall _ => true
  | _ => false

/-- Predicate on events: the VCS worktree-removal call. -/
def isRemoveWorktreeEvent : Event → Bool
  | .removeWorktreeCall _ => true
  | _ => false

/-- Predicate on events: the recursive directory-removal call. -/
def isRemoveAllEvent : Event → Bool
  | .removeAllCall _ => true
  | _ => false

/-- Predicate on events: the tmux window-closure call. -/
def isCloseWindowEvent : Event → Bool
  | .closeWindowCall _ _ => true
  | _ => false

/-- Ordering check for a trace: true exactly when every removal event is
strictly preceded by some working-directory-change event.  Scanning from the
head, a removal before the first chdir refutes it; once a chdir is seen
every later event is covered. -/
def chdirBeforeRemovals : List Event → Bool
  | [] => true
  | ev :: rest =>
    if isRemovalEvent ev then false
    else if isChdirEvent ev then true
    else chdirBeforeRemovals rest

/-- Success test for an Except-style result. -/
def isOkE {α : Type} : Except String α → Bool
  | .ok _ => true
  | .error _ => false

/-- The condition under which the source deems the process to be inside the
target worktree (line 109): filepath.Rel succeeded and its result does not
start with "..". -/
def insideTarget (e : Env) : Bool :=
  match e.relRes with
  | .ok r => !strStarts r ".."
  | .error _ => false

/-- Condition for an invocation to reach the teardown sequence proper (the
removal and tmux steps, lines 120-154): every fatal-on-failure step before
them succeeds.  Relative-path failure is not fatal (it only clears the
inside-target flag), and the chdir step is reached only when inside the
target. -/
def reachesTeardown (e : Env) : Prop :=
  e.goos ≠ "windows" ∧
  (e.args = [] → e.isInWorktree = true ∧ isOkE e.currentWorktreePathRes = true) ∧
  e.validateRes = none ∧
  isOkE e.mainRepoRootRes = true ∧
  isOkE e.getwdRes = true ∧
  isOkE e.absCurrentRes = true ∧
  isOkE e.absWorktreeRes = true ∧
  (insideTarget e = true → e.chdirRes = none)

/-- The worktree name the source resolves for an invocation (lines 51-63):
the first positional argument if one is given, otherwise the last path
segment of the current worktree path. -/
def resolvedName (e : Env) : String :=
  match e.args with
  | [] =>
    (match e.currentWorktreePathRes with
     | .ok p => filepathBase p
     | .error _ => "")
  | n :: _ => n

/-- Predicate on events: events that can occur before the main-repository
root is resolved (resolution, validation, context acquisition, root lookup
and printed notices) — in particular no stat, chdir, removal or tmux call. -/
def preludeEvent : Event → Bool
  | .isInWorktreeCall => true
  | .getCurrentWorktreePathCall => true
  | .validateCall _ => true
  | .setupContextCall => true
  | .getMainRepoRootCall => true
  | .printLine _ => true
  | _ => false

/-- The worktreeExists flag of source lines 84-89: false exactly when the
stat probe failed with a not-exist error. -/
def worktreeExistsOf (e : Env) : Bool :=
  match e.statRes with
  | .notExist => false
  | _ => true

/-- Predicate on events: events that can occur between the stat probe and
the removal steps (probing, path resolution, the chdir step and printed
notices) — in particular no removal and no tmux call. -/
def midEvent : Event → Bool
  | .statCall _ => true
  | .getwdCall => true
  | .absCall _ => true
  | .relCall _ _ => true
  | .chdirCall _ => true
  | .printLine _ => true
  | _ => false

/-- Invocation run from inside the target worktree with every collaborator
call succeeding and a tmux session active. -/
def envC1 : Env :=
  { goos := "linux", args := ["feature-x"], isInWorktree := false,
    currentWorktreePathRes := .error "not queried", validateRes := none,
    mainRepoRootRes := .ok "/home/me/repo", statRes := .ok,
    getwdRes := .ok "/home/me/repo/.koh/feature-x",
    absCurrentRes := .ok "/home/me/repo/.koh/feature-x",
    absWorktreeRes := .ok "/home/me/repo/.koh/feature-x",
    relRes := .ok ".", chdirRes := none, removeWorktreeRes := none,
    removeAllRes := none, isInTmux := true, repoNameRes := .ok "myrepo",
    closeWindowRes := none }

/-- Invocation run from the main repository with the worktree present. -/
def envC2 : Env :=
  { envC1 with
    args := ["feature-y"],
    getwdRes := .ok "/home/me/repo", absCurrentRes := .ok "/home/me/repo",
    absWorktreeRes := .ok "/home/me/repo/.koh/feature-y",
    relRes := .ok "../.." }

/-- Invocation run from the main repository in which the stat probe reports
the worktree path as missing. -/
def envC2cx : Env :=
  { envC1 with
    statRes := .notExist,
    getwdRes := .ok "/home/me/repo", absCurrentRes := .ok "/home/me/repo",
    relRes := .ok "../..", isInTmux := false }

/-- Invocation with the path-traversal identifier "../../etc", which the
validator rejects. -/
def envC3 : Env :=
  { envC1 with
    args := ["../../etc"],
    validateRes := some "worktree name contains path traversal" }

/-- Invocation in which every teardown sub-step fails: VCS removal,
directory removal, repository-name lookup and window closure. -/
def envC4 : Env :=
  { envC1 with
    removeWorktreeRes := some "exit status 128",
    removeAllRes := some "permission denied",
    repoNameRes := .error "exit status 1",
    closeWindowRes := some "no such window" }

/-- Invocation run from the main repository against an already-removed
worktree, with a tmux session active. -/
def envC5 : Env :=
  { envC1 with
    statRes := .notExist,
    getwdRes := .ok "/home/me/repo", absCurrentRes := .ok "/home/me/repo",
    relRes := .ok "../.." }

/-- Invocation with no argument from a directory that is not inside any
managed worktree. -/
def envC6 : Env :=
  { envC1 with
    args := [], isInWorktree := false }

/-- Invocation on Windows. -/
def envC7 : Env :=
  { envC1 with
    goos := "windows" }

/-- Invocation with a tmux session active but a failing repository-name
lookup. -/
def envC8 : Env :=
  { envC1 with
    repoNameRes := .error "exit status 1" }

/-- Invocation run from outside the target worktree (the relative path from
the target to the current directory starts with ".."). -/
def envC9 : Env :=
  { envC1 with
    getwdRes := .ok "/home/me/repo",
    absCurrentRes := .ok "/home/me/repo", relRes := .ok "../.." }

/-- Invocation in which the stat probe fails with an error other than
not-exist (for example a permission error). -/
def envC10 : Env :=
  { envC1 with
    statRes := .otherErr "permission denied" }

theorem removalSteps_chdir_not_mem (e : Env) (n p : String) (ex : Bool) (pth : String) :
    Event.chdirCall pth ∉ removalSteps e n p ex := by
  unfold removalSteps
  cases ex <;> rcases e.removeWorktreeRes with _ | m <;> rcases e.removeAllRes with _ | m2 <;> simp

theorem tmuxSteps_chdir_not_mem (e : Env) (n pth : String) :
    Event.chdirCall pth ∉ tmuxSteps e n := by
  unfold tmuxSteps
  cases e.isInTmux <;> rcases e.repoNameRes with m | nm <;> rcases e.closeWindowRes with _ | m2 <;> simp

theorem teardown_chdir_first (e : Env) (n p root r : String)
    (hrel : e.relRes = .ok r) (hin : strStarts r ".." = false) :
    chdirBeforeRemovals (teardownFromStat e n p root).1 = true := by
  rcases e with ⟨goos, args, inw, cwp, vres, mrr, stat, gwd, absC, absW, rel, chd, rmw, rma, intm, rn, cw⟩
  simp only at hrel
  subst hrel
  unfold teardownFromStat
  cases stat <;> cases gwd <;> cases absC <;> cases absW <;> cases chd <;>
    simp [chdirBeforeRemovals, isRemovalEvent, isChdirEvent, hin]

set_option maxHeartbeats 1000000 in
theorem teardown_chdir_only_root (e : Env) (n p root pth : String) :
    Event.chdirCall pth ∈ (teardownFromStat e n p root).1 → pth = root := by
  rcases e with ⟨goos, args, inw, cwp, vres, mrr, stat, gwd, absC, absW, rel, chd, rmw, rma, intm, rn, cw⟩
  unfold teardownFromStat
  cases stat <;> cases gwd <;> cases absC <;> cases absW <;> cases rel <;> cases chd <;>
    dsimp only <;> (try split) <;>
    simp [removalSteps_chdir_not_mem, tmuxSteps_chdir_not_mem]

theorem teardown_no_chdir_outside (e : Env) (n p root pth r : String)
    (hrel : e.relRes = .ok r) (hout : strStarts r ".." = true) :
    Event.chdirCall pth ∉ (teardownFromStat e n p root).1 := by
  rcases e with ⟨goos, args, inw, cwp, vres, mrr, stat, gwd, absC, absW, rel, chd, rmw, rma, intm, rn, cw⟩
  simp only at hrel
  subst hrel
  unfold teardownFromStat
  cases stat <;> cases gwd <;> cases absC <;> cases absW <;>
    simp [hout, removalSteps_chdir_not_mem, tmuxSteps_chdir_not_mem]

set_option maxHeartbeats 1000000 in
theorem runCleanup_chdir_first (e : Env) (r : String)
    (hrel : e.relRes = .ok r) (hin : strStarts r ".." = false) :
    chdirBeforeRemovals (runCleanup e).1 = true := by
  rcases e with ⟨goos, args, inw, cwp, vres, mrr, stat, gwd, absC, absW, rel, chd, rmw, rma, intm, rn, cw⟩
  simp only at hrel
  subst hrel
  unfold runCleanup extractWorkTreeName
  by_cases hg : goos = "windows"
  · simp [hg, chdirBeforeRemovals]
  · cases args <;> cases inw <;> rcases cwp with m | pth <;> rcases vres with _ | vm <;>
      rcases mrr with m2 | rt <;> dsimp only <;>
      simp [hg, chdirBeforeRemovals, isRemovalEvent, isChdirEvent, hin, teardown_chdir_first]

set_option maxHeartbeats 1000000 in
theorem runCleanup_chdir_only_root (e : Env) (root pth : String)
    (hroot : e.mainRepoRootRes = .ok root) :
    Event.chdirCall pth ∈ (runCleanup e).1 → pth = root := by
  rcases e with ⟨goos, args, inw, cwp, vres, mrr, stat, gwd, absC, absW, rel, chd, rmw, rma, intm, rn, cw⟩
  simp only at hroot
  subst hroot
  unfold runCleanup extractWorkTreeName
  by_cases hg : goos = "windows"
  · simp [hg]
  · cases args <;> cases inw <;> rcases cwp with m | pth2 <;> rcases vres with _ | vm <;>
      dsimp only <;> (simp [hg]) <;> exact teardown_chdir_only_root _ _ _ _ _

theorem runCleanup_decomp (e : Env) (h : reachesTeardown e) :
    ∃ pre root,
      runCleanup e =
        (pre ++ (teardownFromStat e (resolvedName e)
            (buildWorktreePath root (resolvedName e)) root).1,
         (teardownFromStat e (resolvedName e)
            (buildWorktreePath root (resolvedName e)) root).2) ∧
      e.mainRepoRootRes = .ok root ∧
      pre.all preludeEvent = true := by
  obtain ⟨hg, hargs, hv, hroot, -, -, -, -⟩ := h
  rcases e with ⟨goos, args, inw, cwp, vres, mrr, stat, gwd, absC, absW, rel, chd, rmw, rma, intm, rn, cw⟩
  simp only at hg hargs hv hroot ⊢
  subst hv
  cases mrr with
  | error m => simp [isOkE] at hroot
  | ok root =>
    cases args with
    | cons n rest =>
      refine ⟨[Event.validateCall n, Event.setupContextCall, Event.getMainRepoRootCall],
              root, ?_, rfl, by simp [preludeEvent]⟩
      unfold runCleanup
      simp [hg, resolvedName]
    | nil =>
      obtain ⟨hinw, hcwp⟩ := hargs rfl
      subst hinw
      cases cwp with
      | error m => simp [isOkE] at hcwp
      | ok pth =>
        refine ⟨[Event.isInWorktreeCall, Event.getCurrentWorktreePathCall,
                 Event.printLine ("Detected current worktree: " ++ filepathBase pth),
                 Event.validateCall (filepathBase pth), Event.setupContextCall,
                 Event.getMainRepoRootCall],
                root, ?_, rfl, by simp [preludeEvent]⟩
        unfold runCleanup extractWorkTreeName
        simp [hg, resolvedName]

set_option maxHeartbeats 1000000 in
theorem teardown_shape (e : Env) (n p root : String)
    (hgwd : isOkE e.getwdRes = true) (habsC : isOkE e.absCurrentRes = true)
    (habsW : isOkE e.absWorktreeRes = true)
    (hchd : insideTarget e = true → e.chdirRes = none) :
    ∃ mid,
      (teardownFromStat e n p root).1 =
        mid ++ removalSteps e n p (worktreeExistsOf e) ++ tmuxSteps e n ++
          [Event.printLine "Cleanup complete!"] ∧
      (teardownFromStat e n p root).2 = .ok () ∧
      mid.all midEvent = true ∧
      (e.statRes = .notExist →
        Event.printLine "Will attempt to clean up tmux window only" ∈ mid) := by
  rcases e with ⟨goos, args, inw, cwp, vres, mrr, stat, gwd, absC, absW, rel, chd, rmw, rma, intm, rn, cw⟩
  simp only at hgwd habsC habsW hchd ⊢
  cases gwd with
  | error m => simp [isOkE] at hgwd
  | ok d =>
  cases absC with
  | error m => simp [isOkE] at habsC
  | ok cpath =>
  cases absW with
  | error m => simp [isOkE] at habsW
  | ok wpath =>
  rcases rel with m | r
  · cases stat <;>
      exact ⟨_, rfl, rfl, by simp [midEvent], by simp⟩
  · cases hb : strStarts r ".." with
    | true =>
        cases stat with
        | ok =>
            exact ⟨[Event.statCall p, Event.getwdCall, Event.absCall d, Event.absCall p,
                    Event.relCall wpath cpath],
                   by unfold teardownFromStat; dsimp only; rw [hb]; rfl,
                   by unfold teardownFromStat; dsimp only; rw [hb]; rfl,
                   by simp [midEvent], by simp⟩
        | notExist =>
            exact ⟨[Event.statCall p,
                    Event.printLine ("Warning: Worktree .koh/" ++ n ++ " not found"),
                    Event.printLine "Will attempt to clean up tmux window only",
                    Event.getwdCall, Event.absCall d, Event.absCall p,
                    Event.relCall wpath cpath],
                   by unfold teardownFromStat; dsimp only; rw [hb]; rfl,
                   by unfold teardownFromStat; dsimp only; rw [hb]; rfl,
                   by simp [midEvent], by simp⟩
        | otherErr m2 =>
            exact ⟨[Event.statCall p, Event.getwdCall, Event.absCall d, Event.absCall p,
                    Event.relCall wpath cpath],
                   by unfold teardownFromStat; dsimp only; rw [hb]; rfl,
                   by unfold teardownFromStat; dsimp only; rw [hb]; rfl,
                   by simp [midEvent], by simp⟩
    | false =>
        have hc : chd = none := hchd (by simp [insideTarget, hb])
        subst hc
        cases stat with
        | ok =>
            exact ⟨[Event.statCall p, Event.getwdCall, Event.absCall d, Event.absCall p,
                    Event.relCall wpath cpath,
                    Event.printLine
                      "Running from within target worktree, switching to parent repository...",
                    Event.chdirCall root,
                    Event.printLine ("Changed directory to: " ++ root)],
                   by unfold teardownFromStat; dsimp only; rw [hb]; rfl,
                   by unfold teardownFromStat; dsimp only; rw [hb]; rfl,
                   by simp [midEvent], by simp⟩
        | notExist =>
            exact ⟨[Event.statCall p,
                    Event.printLine ("Warning: Worktree .koh/" ++ n ++ " not found"),
                    Event.printLine "Will attempt to clean up tmux window only",
                    Event.getwdCall, Event.absCall d, Event.absCall p,
                    Event.relCall wpath cpath,
                    Event.printLine
                      "Running from within target worktree, switching to parent repository...",
                    Event.chdirCall root,
                    Event.printLine ("Changed directory to: " ++ root)],
                   by unfold teardownFromStat; dsimp only; rw [hb]; rfl,
                   by unfold teardownFromStat; dsimp only; rw [hb]; rfl,
                   by simp [midEvent], by simp⟩
        | otherErr m2 =>
            exact ⟨[Event.statCall p, Event.getwdCall, Event.absCall d, Event.absCall p,
                    Event.relCall wpath cpath,
                    Event.printLine
                      "Running from within target worktree, switching to parent repository...",
                    Event.chdirCall root,
                    Event.printLine ("Changed directory to: " ++ root)],
                   by unfold teardownFromStat; dsimp only; rw [hb]; rfl,
                   by unfold teardownFromStat; dsimp only; rw [hb]; rfl,
                   by simp [midEvent], by simp⟩

theorem any_eq_false_of_all (l : List Event) (p q : Event → Bool)
    (h : l.all p = true) (hq : ∀ ev, p ev = true → q ev = false) :
    l.any q = false := by
  induction l with
  | nil => rfl
  | cons a t ih =>
    rw [List.all_cons, Bool.and_eq_true] at h
    simp [List.any_cons, hq a h.1, ih h.2]

theorem prelude_no_removeWorktree (ev : Event) (h : preludeEvent ev = true) :
    isRemoveWorktreeEvent ev = false := by
  cases ev <;> simp_all [preludeEvent, isRemoveWorktreeEvent]

theorem prelude_no_removeAll (ev : Event) (h : preludeEvent ev = true) :
    isRemoveAllEvent ev = false := by
  cases ev <;> simp_all [preludeEvent, isRemoveAllEvent]

theorem mid_no_removeWorktree (ev : Event) (h : midEvent ev = true) :
    isRemoveWorktreeEvent ev = false := by
  cases ev <;> simp_all [midEvent, isRemoveWorktreeEvent]

theorem mid_no_removeAll (ev : Event) (h : midEvent ev = true) :
    isRemoveAllEvent ev = false := by
  cases ev <;> simp_all [midEvent, isRemoveAllEvent]

theorem removalSteps_removeWorktree_mem (e : Env) (n p : String) :
    Event.removeWorktreeCall p ∈ removalSteps e n p true := by
  unfold removalSteps; simp

theorem removalSteps_any_removeAll (e : Env) (n p : String) :
    (removalSteps e n p true).any isRemoveAllEvent = true := by
  unfold removalSteps
  rcases e.removeWorktreeRes with _ | m <;> rcases e.removeAllRes with _ | m2 <;>
    simp [isRemoveAllEvent]

theorem tmuxSteps_any_removeWorktree (e : Env) (n : String) :
    (tmuxSteps e n).any isRemoveWorktreeEvent = false := by
  unfold tmuxSteps
  cases e.isInTmux <;> rcases e.repoNameRes with m | nm <;> rcases e.closeWindowRes with _ | m2 <;>
    simp [isRemoveWorktreeEvent]

theorem tmuxSteps_any_removeAll (e : Env) (n : String) :
    (tmuxSteps e n).any isRemoveAllEvent = false := by
  unfold tmuxSteps
  cases e.isInTmux <;> rcases e.repoNameRes with m | nm <;> rcases e.closeWindowRes with _ | m2 <;>
    simp [isRemoveAllEvent]

theorem tmuxSteps_closeWindow_mem (e : Env) (n : String) (hintm : e.isInTmux = true) :
    Event.closeWindowCall (repoStr e ++ "|" ++ n) n ∈ tmuxSteps e n := by
  unfold tmuxSteps
  rcases hrn : e.repoNameRes with m | nm <;> rcases e.closeWindowRes with _ | m2 <;>
    simp [hintm, hrn]

/-- C1: for every invocation in which the current working directory is equal
to or nested under the computed target worktree path (filepath.Rel from the
target succeeded and its result does not start with ".."), every removal
call (VCS worktree removal or recursive directory removal) in the trace is
strictly preceded by a working-directory change, and every working-directory
change in the trace targets the main repository root. -/
theorem cleanup_C1 (e : Env) (r root : String)
    (hrel : e.relRes = .ok r) (hin : strStarts r ".." = false)
    (hroot : e.mainRepoRootRes = .ok root) :
    chdirBeforeRemovals (runCleanup e).1 = true ∧
    (∀ pth, Event.chdirCall pth ∈ (runCleanup e).1 → pth = root) :=
  ⟨runCleanup_chdir_first e r hrel hin,
   fun pth => runCleanup_chdir_only_root e root pth hroot⟩

theorem cleanup_C1_witness :
    chdirBeforeRemovals (runCleanup envC1).1 = true :=
  (cleanup_C1 envC1 "." "/home/me/repo" rfl (by decide) rfl).1

/-- C2 (counterexample to the claim as stated): a concrete invocation that
reaches the teardown sequence — the stat probe runs and the run completes
with a nil error — in which the existence probe found the path absent, and
neither the VCS worktree removal nor the recursive directory removal is ever
attempted.  This refutes the claim that the residual directory removal is
attempted unconditionally. -/
theorem cleanup_C2_counterexample :
    Event.statCall "/home/me/repo/.koh/feature-x" ∈ (runCleanup envC2cx).1 ∧
    (runCleanup envC2cx).2 = .ok () ∧
    (runCleanup envC2cx).1.any isRemoveWorktreeEvent = false ∧
    (runCleanup envC2cx).1.any isRemoveAllEvent = false := by
  refine ⟨by decide, rfl, rfl, rfl⟩

/-- C2 (amended): for every invocation that reaches the teardown sequence,
the residual recursive directory removal is attempted if and only if the
existence probe did not report the path as absent; when the probe found the
path absent (so the VCS step never ran), the directory removal is skipped as
well. -/
theorem cleanup_C2_amended (e : Env) (h : reachesTeardown e) :
    (runCleanup e).1.any isRemoveAllEvent = true ↔ e.statRes ≠ .notExist := by
  obtain ⟨pre, root, heq, hroot, hpre⟩ := runCleanup_decomp e h
  obtain ⟨-, -, -, -, hgwd, habsC, habsW, hchd⟩ := h
  obtain ⟨mid, hmid, -, hmidall, -⟩ :=
    teardown_shape e (resolvedName e) (buildWorktreePath root (resolvedName e)) root
      hgwd habsC habsW hchd
  have hpre1 := any_eq_false_of_all pre preludeEvent isRemoveAllEvent hpre
    prelude_no_removeAll
  have hmid1 := any_eq_false_of_all mid midEvent isRemoveAllEvent hmidall
    mid_no_removeAll
  rw [heq]; dsimp only; rw [hmid]
  rcases hst : e.statRes with _ | _ | m <;>
    simp [List.any_append, hpre1, hmid1, worktreeExistsOf, hst, removalSteps,
      removalSteps_any_removeAll, tmuxSteps_any_removeAll, isRemoveAllEvent]

theorem cleanup_C2_witness :
    (runCleanup envC2).1.any isRemoveAllEvent = true ↔ envC2.statRes ≠ .notExist :=
  cleanup_C2_amended envC2 (by unfold reachesTeardown; decide)

/-- C3: for an explicitly supplied identifier that the validator rejects,
runCleanup returns the invalid-identifier error immediately and the trace
consists of the validator call alone — no worktree path is constructed and
no VCS, filesystem or multiplexer collaborator is called. -/
theorem cleanup_C3 (e : Env) (n : String) (rest : List String) (msg : String)
    (hg : e.goos ≠ "windows") (ha : e.args = n :: rest) (hv : e.validateRes = some msg) :
    runCleanup e =
      ([Event.validateCall n], .error ("invalid worktree name: " ++ msg)) := by
  rcases e with ⟨goos, args, inw, cwp, vres, mrr, stat, gwd, absC, absW, rel, chd, rmw, rma, intm, rn, cw⟩
  simp only at hg ha hv
  subst ha; subst hv
  unfold runCleanup
  simp [hg]

theorem cleanup_C3_witness :
    runCleanup envC3 =
      ([Event.validateCall "../../etc"],
       .error ("invalid worktree name: " ++ "worktree name contains path traversal")) :=
  cleanup_C3 envC3 "../../etc" [] "worktree name contains path traversal"
    (by decide) rfl rfl

/-- C4: every invocation that reaches the teardown sequence returns a nil
error and prints the final "Cleanup complete!" notice — for every outcome of
the VCS removal, directory removal, repository-name lookup and window
closure, since those results are universally quantified here. -/
theorem cleanup_C4 (e : Env) (h : reachesTeardown e) :
    (runCleanup e).2 = .ok () ∧
    Event.printLine "Cleanup complete!" ∈ (runCleanup e).1 := by
  obtain ⟨pre, root, heq, hroot, hpre⟩ := runCleanup_decomp e h
  obtain ⟨-, -, -, -, hgwd, habsC, habsW, hchd⟩ := h
  obtain ⟨mid, hmid, hok, -, -⟩ :=
    teardown_shape e (resolvedName e) (buildWorktreePath root (resolvedName e)) root
      hgwd habsC habsW hchd
  constructor
  · rw [heq]; exact hok
  · rw [heq]; dsimp only; rw [hmid]; simp

theorem cleanup_C4_witness :
    (runCleanup envC4).2 = .ok () ∧
    Event.printLine "Cleanup complete!" ∈ (runCleanup envC4).1 :=
  cleanup_C4 envC4 (by unfold reachesTeardown; decide)

/-- C5: for every invocation that reaches the teardown sequence with the
stat probe reporting the path absent, no VCS worktree removal is attempted,
window closure is still attempted whenever a tmux session is active, the
absence is reported, and the run still returns a nil error. -/
theorem cleanup_C5 (e : Env) (h : reachesTeardown e) (hst : e.statRes = .notExist) :
    (runCleanup e).1.any isRemoveWorktreeEvent = false ∧
    (e.isInTmux = true → (runCleanup e).1.any isCloseWindowEvent = true) ∧
    Event.printLine "Will attempt to clean up tmux window only" ∈ (runCleanup e).1 ∧
    (runCleanup e).2 = .ok () := by
  obtain ⟨pre, root, heq, hroot, hpre⟩ := runCleanup_decomp e h
  obtain ⟨-, -, -, -, hgwd, habsC, habsW, hchd⟩ := h
  obtain ⟨mid, hmid, hok, hmidall, hwill⟩ :=
    teardown_shape e (resolvedName e) (buildWorktreePath root (resolvedName e)) root
      hgwd habsC habsW hchd
  have hex : worktreeExistsOf e = false := by simp [worktreeExistsOf, hst]
  have hpre1 := any_eq_false_of_all pre preludeEvent isRemoveWorktreeEvent hpre
    prelude_no_removeWorktree
  have hmid1 := any_eq_false_of_all mid midEvent isRemoveWorktreeEvent hmidall
    mid_no_removeWorktree
  refine ⟨?_, ?_, ?_, ?_⟩
  · rw [heq]; dsimp only; rw [hmid, hex]
    simp [List.any_append, hpre1, hmid1, removalSteps,
      tmuxSteps_any_removeWorktree, isRemoveWorktreeEvent]
  · intro hintm
    have hcw : (tmuxSteps e (resolvedName e)).any isCloseWindowEvent = true :=
      List.any_eq_true.mpr ⟨_, tmuxSteps_closeWindow_mem e (resolvedName e) hintm, rfl⟩
    rw [heq]; dsimp only; rw [hmid]
    simp [List.any_append, hcw]
  · rw [heq]; dsimp only; rw [hmid]
    simp [List.mem_append, hwill hst]
  · rw [heq]; exact hok

theorem cleanup_C5_witness :
    (runCleanup envC5).1.any isRemoveWorktreeEvent = false ∧
    (envC5.isInTmux = true → (runCleanup envC5).1.any isCloseWindowEvent = true) ∧
    Event.printLine "Will attempt to clean up tmux window only" ∈ (runCleanup envC5).1 ∧
    (runCleanup envC5).2 = .ok () :=
  cleanup_C5 envC5 (by unfold reachesTeardown; decide) rfl

/-- C6: for an invocation with no explicit identifier whose current
directory is not inside any managed worktree, runCleanup fails with the
not-in-worktree error and the trace consists of the worktree-membership
query alone — no validation, path construction, removal or window closure
runs. -/
theorem cleanup_C6 (e : Env) (hg : e.goos ≠ "windows") (ha : e.args = [])
    (hw : e.isInWorktree = false) :
    runCleanup e =
      ([Event.isInWorktreeCall],
       .error "failed to extract worktree name: not in a worktree") := by
  rcases e with ⟨goos, args, inw, cwp, vres, mrr, stat, gwd, absC, absW, rel, chd, rmw, rma, intm, rn, cw⟩
  simp only at hg ha hw
  subst ha; subst hw
  unfold runCleanup extractWorkTreeName
  simp [hg]

theorem cleanup_C6_witness :
    runCleanup envC6 =
      ([Event.isInWorktreeCall],
       .error "failed to extract worktree name: not in a worktree") :=
  cleanup_C6 envC6 (by decide) rfl rfl

/-- C7: on Windows, runCleanup fails immediately with the
unsupported-platform error and performs no action at all: the trace is
empty, so nothing is resolved, validated or touched. -/
theorem cleanup_C7 (e : Env) (hw : e.goos = "windows") :
    runCleanup e = ([], .error "cleanup command is not supported on Windows") := by
  unfold runCleanup
  simp [hw]

theorem cleanup_C7_witness :
    runCleanup envC7 = ([], .error "cleanup command is not supported on Windows") :=
  cleanup_C7 envC7 rfl

/-- C8: for every invocation that reaches the teardown sequence with a tmux
session active, the window identifier passed to the multiplexer is the
repository name, a literal "|" and the target identifier in that order,
where a failed repository-name lookup degrades the name to the empty string
and the closure is still attempted. -/
theorem cleanup_C8 (e : Env) (h : reachesTeardown e) (hintm : e.isInTmux = true) :
    Event.closeWindowCall (repoStr e ++ "|" ++ resolvedName e) (resolvedName e) ∈
      (runCleanup e).1 ∧
    (∀ m, e.repoNameRes = .error m → repoStr e = "") := by
  obtain ⟨pre, root, heq, hroot, hpre⟩ := runCleanup_decomp e h
  obtain ⟨-, -, -, -, hgwd, habsC, habsW, hchd⟩ := h
  obtain ⟨mid, hmid, -, -, -⟩ :=
    teardown_shape e (resolvedName e) (buildWorktreePath root (resolvedName e)) root
      hgwd habsC habsW hchd
  constructor
  · rw [heq]; dsimp only; rw [hmid]
    simp [List.mem_append, tmuxSteps_closeWindow_mem e (resolvedName e) hintm]
  · intro m hm; simp [repoStr, hm]

theorem cleanup_C8_witness :
    Event.closeWindowCall "|feature-x" "feature-x" ∈ (runCleanup envC8).1 :=
  (cleanup_C8 envC8 (by unfold reachesTeardown; decide) rfl).1

/-- C9: for every invocation in which the relative path from the target to
the current directory starts with ".." (the process is outside the target
worktree), no working-directory change occurs anywhere in the run. -/
theorem cleanup_C9 (e : Env) (r : String)
    (hrel : e.relRes = .ok r) (hout : strStarts r ".." = true) :
    ∀ pth, Event.chdirCall pth ∉ (runCleanup e).1 := by
  intro pth
  have htd := teardown_no_chdir_outside e
  rcases e with ⟨goos, args, inw, cwp, vres, mrr, stat, gwd, absC, absW, rel, chd, rmw, rma, intm, rn, cw⟩
  simp only at hrel
  subst hrel
  unfold runCleanup extractWorkTreeName
  by_cases hg : goos = "windows"
  · simp [hg]
  · cases args <;> cases inw <;> rcases cwp with m | pth2 <;> rcases vres with _ | vm <;>
      rcases mrr with m2 | rt <;> dsimp only <;>
      simp [hg] <;>
      exact htd _ _ _ _ _ rfl hout

theorem cleanup_C9_witness :
    Event.chdirCall "/home/me/repo" ∉ (runCleanup envC9).1 :=
  cleanup_C9 envC9 "../.." rfl (by decide) "/home/me/repo"

/-- C10: for every invocation that reaches the teardown sequence in which
the stat probe fails with an error other than not-exist, the worktree is
treated as existing: both the VCS worktree removal and the recursive
directory removal are still attempted. -/
theorem cleanup_C10 (e : Env) (m : String) (h : reachesTeardown e)
    (hst : e.statRes = .otherErr m) :
    (runCleanup e).1.any isRemoveWorktreeEvent = true ∧
    (runCleanup e).1.any isRemoveAllEvent = true := by
  obtain ⟨pre, root, heq, hroot, hpre⟩ := runCleanup_decomp e h
  obtain ⟨-, -, -, -, hgwd, habsC, habsW, hchd⟩ := h
  obtain ⟨mid, hmid, -, -, -⟩ :=
    teardown_shape e (resolvedName e) (buildWorktreePath root (resolvedName e)) root
      hgwd habsC habsW hchd
  have hex : worktreeExistsOf e = true := by simp [worktreeExistsOf, hst]
  have h1 : (removalSteps e (resolvedName e)
      (buildWorktreePath root (resolvedName e)) true).any isRemoveWorktreeEvent = true :=
    List.any_eq_true.mpr
      ⟨_, removalSteps_removeWorktree_mem e (resolvedName e)
            (buildWorktreePath root (resolvedName e)), rfl⟩
  constructor
  · rw [heq]; dsimp only; rw [hmid, hex]
    simp [List.any_append, h1]
  · rw [heq]; dsimp only; rw [hmid, hex]
    simp [List.any_append, removalSteps_any_removeAll]

theorem cleanup_C10_witness :
    (runCleanup envC10).1.any isRemoveWorktreeEvent = true ∧
    (runCleanup envC10).1.any isRemoveAllEvent = true :=
  cleanup_C10 envC10 "permission denied" (by unfold reachesTeardown; decide) rfl
